import Mathlib

/-!
Verification of the cover-letter generation-and-caching engine of
SmartApplyHub (`src/coverLetterGenerator.py`, `util/__init__.py`).

The Python functions are shallowly embedded as executable Lean
definitions.  Strings are modelled through their character lists
(`List Char`); the Python regular-expression operations used by the
code are translated into explicit list functions whose semantics match
the regex engine on the patterns actually used.  Effectful parts
(file system, model backend, clock) are supplied by explicit
environment records, so each Python function becomes a pure function
of its inputs and the environment.
-/

/-! ## Character classes

`isSpc` models Python's whitespace class: the set used both by
`str.strip()` and by `\s` in `re` patterns over `str`.  It covers the
ASCII whitespace characters together with the Unicode whitespace code
points recognised by CPython. -/

def isSpc (c : Char) : Bool :=
  c = ' ' || c = '\t' || c = '\n' || c = '\r' ||
  c = Char.ofNat 11 || c = Char.ofNat 12 ||
  (28 ≤ c.toNat && c.toNat ≤ 31) || c.toNat = 133 || c.toNat = 160 ||
  c.toNat = 0x1680 || (0x2000 ≤ c.toNat && c.toNat ≤ 0x200a) ||
  c.toNat = 0x2028 || c.toNat = 0x2029 || c.toNat = 0x202f ||
  c.toNat = 0x205f || c.toNat = 0x3000

/-- CJK Unified Ideographs block, the `[一-鿿]` class of
`detect_company_language` and of the subject whitelist. -/
def isCJK (c : Char) : Bool :=
  0x4e00 ≤ c.toNat && c.toNat ≤ 0x9fff

/-- Word characters (`\w`).  Python matches all Unicode letters and
digits plus the underscore; the repository's data is ASCII and CJK, so
the embedding covers ASCII alphanumerics, the underscore and the CJK
ideographs. -/
def isWordChar (c : Char) : Bool :=
  c.isAlphanum || c = '_' || isCJK c

/-- The whitelist of `re.sub(r'[^\w\s\-\(\)（）一-鿿]', '', subject)`:
a character survives the subject filter iff this holds. -/
def keepChar (c : Char) : Bool :=
  isWordChar c || isSpc c || c = '-' || c = '(' || c = ')' ||
  c = '（' || c = '）'

/-- The two quote characters of `re.sub(r'^["\']|["\']$', '', subject)`. -/
def isQuoteChar (c : Char) : Bool :=
  c = Char.ofNat 34 || c = Char.ofNat 39

/-! ## Generic string helpers (Python `str` semantics on `List Char`) -/

/-- Remove trailing characters satisfying `isSpc` (the right half of
Python `str.strip()`). -/
def stripTrail : List Char → List Char
  | [] => []
  | c :: r => if isSpc c && (stripTrail r).isEmpty then [] else c :: stripTrail r

/-- Python `str.strip()`. -/
def pyStrip (l : List Char) : List Char :=
  stripTrail (l.dropWhile isSpc)

/-- `re.sub(r'\s+', ' ', s)`: every maximal whitespace run becomes one
space.  The flag records whether the previous character was part of a
whitespace run whose replacement space is already emitted. -/
def collapseAux : Bool → List Char → List Char
  | _, [] => []
  | prevWs, c :: r =>
    if isSpc c then
      if prevWs then collapseAux true r else ' ' :: collapseAux true r
    else c :: collapseAux false r

def collapseWs (l : List Char) : List Char :=
  collapseAux false l

/-- `content.split('\n')`: split at every newline, keeping empty parts;
the empty string yields one empty part. -/
def splitOnNl : List Char → List (List Char)
  | [] => [[]]
  | c :: cs =>
    if c = '\n' then [] :: splitOnNl cs
    else
      match splitOnNl cs with
      | [] => [[c]]
      | l :: ls => (c :: l) :: ls

/-- `'\n'.join(lines)`. -/
def joinNl : List (List Char) → List Char
  | [] => []
  | [a] => a
  | a :: r => a ++ '\n' :: joinNl r

/-! ## The subject sanitizer (`parse_subject_output`) -/

def defaultSubjectChars : List Char := "Internship Application".data

/-- Drop one leading quote, as the `^["\']` alternative does. -/
def dropLeadingQuote (l : List Char) : List Char :=
  match l with
  | [] => []
  | c :: r => if isQuoteChar c then r else c :: r

/-- Drop one trailing quote, as the `["\']$` alternative does. -/
def dropTrailingQuote (l : List Char) : List Char :=
  (dropLeadingQuote l.reverse).reverse

/-- `re.sub(r'^["\']|["\']$', '', s)`: the engine removes at most one
leading and at most one trailing quote in a single left-to-right pass. -/
def dropQuotes (l : List Char) : List Char :=
  dropTrailingQuote (dropLeadingQuote l)

def subjectKw : List Char := ['u', 'b', 'j', 'e', 'c', 't']

/-- `re.sub(r'^[Ss]ubject\s*:\s*', '', s)`: remove the label once at
the start, or return the input unchanged when the pattern fails. -/
def dropSubjLabel (l : List Char) : List Char :=
  match l with
  | [] => []
  | c :: r =>
    if (c = 'S' || c = 's') && subjectKw.isPrefixOf r then
      match (r.drop 6).dropWhile isSpc with
      | c2 :: r4 => if c2 = ':' then r4.dropWhile isSpc else c :: r
      | [] => c :: r
    else c :: r

/-- Core of `parse_subject_output` on character lists, step for step:
empty guard, `strip`, quote removal, label removal, whitespace
collapse, length cap at 50 with an appended `"..."`, character
whitelist filter, final `strip` with the default fallback. -/
def parseSubjectCore (raw : List Char) : List Char :=
  if raw.isEmpty then defaultSubjectChars
  else
    let s1 := pyStrip raw
    let s2 := dropQuotes s1
    let s3 := dropSubjLabel s2
    let s4 := collapseWs s3
    let s5 := if 50 < s4.length then s4.take 47 ++ ['.', '.', '.'] else s4
    let s6 := s5.filter keepChar
    if (pyStrip s6).isEmpty then defaultSubjectChars else pyStrip s6

/-- `parse_subject_output(raw_output)` of `coverLetterGenerator.py`. -/
def parse_subject_output (raw_output : String) : String :=
  String.mk (parseSubjectCore raw_output.data)

/-- The cleanup stage of `parse_subject_output` that precedes the
length check: strip, de-quote, label removal, whitespace collapse.
Its length is what the `len(subject) > 50` test inspects. -/
def subjectCleanup (raw : List Char) : List Char :=
  collapseWs (dropSubjLabel (dropQuotes (pyStrip raw)))

/-! ## The letter cleaner (`clean_cover_letter_content`) -/

/-- `re.match` of `\s*:` at the point after a label keyword. -/
def colonAfter (r : List Char) : Bool :=
  match r.dropWhile isSpc with
  | c :: _ => c = ':'
  | [] => false

/-- Match of a fixed label keyword followed by `\s*:`. -/
def labelColon (kw : List Char) (l : List Char) : Bool :=
  kw.isPrefixOf l && colonAfter (l.drop kw.length)

/-- The three skip patterns of `clean_cover_letter_content`, applied to
a stripped line: `^[Ss]ubject\s*:`, `^主题\s*:`, `^邮件主题\s*:`. -/
def isSubjectLine (l : List Char) : Bool :=
  (match l with
   | c :: r => (c = 'S' || c = 's') && labelColon subjectKw r
   | [] => false) ||
  labelColon ['主', '题'] l || labelColon ['邮', '件', '主', '题'] l

/-- The line loop: skip label lines, skip blank lines once some line
has been kept, append everything else (`acc` holds kept lines in
reverse). -/
def keepLines (acc : List (List Char)) : List (List Char) → List (List Char)
  | [] => acc.reverse
  | l :: ls =>
    if isSubjectLine (pyStrip l) then keepLines acc ls
    else if (pyStrip l).isEmpty && !acc.isEmpty then keepLines acc ls
    else keepLines (l :: acc) ls

/-- `re.sub(r'^\s*\n+', '', s)`: the match, when any, is the longest
all-whitespace prefix that ends in a newline; everything up to and
including its last newline is removed. -/
def subLeadingBlank (s : List Char) : List Char :=
  let w := s.takeWhile isSpc
  if '\n' ∈ w then
    s.drop (w.length - (w.reverse.takeWhile (fun c => !(c = '\n'))).length)
  else s

/-- `re.sub(r'\n+\s*$', '', s)`: the match, when any, starts at the
first newline of the trailing all-whitespace run and reaches the end. -/
def subTrailingBlank (s : List Char) : List Char :=
  let t := s.reverse.takeWhile isSpc
  if '\n' ∈ t then
    s.take (s.length - t.length + (t.reverse.takeWhile (fun c => !(c = '\n'))).length)
  else s

/-- Core of `clean_cover_letter_content` on character lists: split into
lines, run the keep loop, rejoin with newlines, strip, and apply the
two (then vacuous) blank-run substitutions. -/
def cleanLetterCore (content : List Char) : List Char :=
  let cleaned := keepLines [] (splitOnNl content)
  subTrailingBlank (subLeadingBlank (pyStrip (joinNl cleaned)))

/-- `clean_cover_letter_content(content)` of `coverLetterGenerator.py`
(the `if not content: return content` guard included). -/
def clean_cover_letter_content (content : String) : String :=
  if content = "" then content else String.mk (cleanLetterCore content.data)

/-- `detect_company_language(company_name)`: Chinese iff the name
contains a CJK ideograph. -/
def detect_company_language (company_name : String) : String :=
  if company_name.data.any isCJK then "chinese" else "english"

/-! ## The prompt catalog (`get_language_specific_prompt`) -/

structure PromptConfig where
  system_prompt : String
  user_prompt_template : String
  subject_prompt_template : String
deriving DecidableEq

def zhProfessionalPrompt : PromptConfig where
  system_prompt :=
    "你是一位专业的求职顾问，擅长撰写高质量的cover letter。你需要根据候选人的简历和公司信息，生成个性化的求职信。请参考LSE CV指南的最佳实践，确保信件专业、有针对性且突出候选人的优势。生成的内容应该是简洁的邮件正文，不要包含地址、日期等格式信息。"
  user_prompt_template :=
    "候选人简历内容：\n{resume_content}\n\n目标公司：{company_name}\n公司简介：{company_description}\n公司要求：{company_requirements}\n\n请为{applicant_name}生成一封专业的cover letter邮件正文。要求：\n1. 开头要个性化，提到公司名称\n2. 突出候选人与公司要求的匹配点\n3. 语言专业、简洁、有说服力\n4. 结尾要表达对机会的期待\n5. 控制在200-300字左右\n6. 不要包含地址、日期等格式信息，直接输出邮件正文内容\n7. 使用中文撰写\n\n请直接输出cover letter内容，不要包含任何说明文字。"
  subject_prompt_template :=
    "候选人简历内容：\n{resume_content}\n\n目标公司：{company_name}\n公司简介：{company_description}\n公司要求：{company_requirements}\n\n请为{applicant_name}生成一个专业的邮件主题行。要求：\n1. 简洁明了，不超过50个字符\n2. 包含公司名称\n3. 体现求职意向\n4. 专业正式\n5. 不要包含特殊字符\n6. 使用中文\n\n请直接输出主题行，不要包含任何说明文字。"

def zhEnthusiasticPrompt : PromptConfig where
  system_prompt :=
    "你是一位充满激情的求职顾问，擅长撰写富有感染力的cover letter。你需要根据候选人的简历和公司信息，生成个性化的求职信。请参考LSE CV指南，同时让语言更加积极、热情，展现候选人的学习热情和成长潜力。生成的内容应该是简洁的邮件正文，不要包含地址、日期等格式信息。"
  user_prompt_template :=
    "候选人简历内容：\n{resume_content}\n\n目标公司：{company_name}\n公司简介：{company_description}\n公司要求：{company_requirements}\n\n请为{applicant_name}生成一封热情积极的cover letter邮件正文。要求：\n1. 展现对公司的热情和兴趣\n2. 突出候选人的学习能力和成长潜力\n3. 语言积极、有感染力\n4. 表达对实习机会的强烈期待\n5. 控制在200-300字左右\n6. 不要包含地址、日期等格式信息，直接输出邮件正文内容\n7. 使用中文撰写\n\n请直接输出cover letter内容，不要包含任何说明文字。"
  subject_prompt_template :=
    "候选人简历内容：\n{resume_content}\n\n目标公司：{company_name}\n公司简介：{company_description}\n公司要求：{company_requirements}\n\n请为{applicant_name}生成一个热情积极的邮件主题行。要求：\n1. 简洁明了，不超过50个字符\n2. 包含公司名称\n3. 体现热情和期待\n4. 积极正面\n5. 不要包含特殊字符\n6. 使用中文\n\n请直接输出主题行，不要包含任何说明文字。"

def enProfessionalPrompt : PromptConfig where
  system_prompt :=
    "You are a professional career advisor, skilled in writing high-quality cover letters. You need to generate personalized cover letters based on the candidate\u0027s resume and company information. Please refer to LSE CV guidelines best practices to ensure the letter is professional, targeted, and highlights the candidate\u0027s strengths. The generated content should be concise email body text, without address, date, or other formatting information."
  user_prompt_template :=
    "Candidate Resume Content:\n{resume_content}\n\nTarget Company: {company_name}\nCompany Description: {company_description}\nCompany Requirements: {company_requirements}\n\nPlease generate a professional cover letter email body for {applicant_name}. Requirements:\n1. Start with personalization, mentioning the company name\n2. Highlight the match between candidate and company requirements\n3. Professional, concise, and persuasive language\n4. End with expression of interest in the opportunity\n5. Keep within 200-300 words\n6. Do not include address, date, or other formatting information\n7. Write in English\n\nPlease output the cover letter content directly, without any explanatory text."
  subject_prompt_template :=
    "Candidate Resume Content:\n{resume_content}\n\nTarget Company: {company_name}\nCompany Description: {company_description}\nCompany Requirements: {company_requirements}\n\nPlease generate a professional email subject line for {applicant_name}. Requirements:\n1. Concise and clear, no more than 50 characters\n2. Include company name\n3. Reflect job application intent\n4. Professional and formal\n5. No special characters\n6. Write in English\n\nPlease output the subject line directly, without any explanatory text."

def enEnthusiasticPrompt : PromptConfig where
  system_prompt :=
    "You are an enthusiastic career advisor, skilled in writing compelling cover letters. You need to generate personalized cover letters based on the candidate\u0027s resume and company information. Please refer to LSE CV guidelines while making the language more positive and enthusiastic, showcasing the candidate\u0027s learning enthusiasm and growth potential. The generated content should be concise email body text, without address, date, or other formatting information."
  user_prompt_template :=
    "Candidate Resume Content:\n{resume_content}\n\nTarget Company: {company_name}\nCompany Description: {company_description}\nCompany Requirements: {company_requirements}\n\nPlease generate an enthusiastic and positive cover letter email body for {applicant_name}. Requirements:\n1. Show enthusiasm and interest in the company\n2. Highlight the candidate\u0027s learning ability and growth potential\n3. Positive and engaging language\n4. Express strong anticipation for the internship opportunity\n5. Keep within 200-300 words\n6. Do not include address, date, or other formatting information\n7. Write in English\n\nPlease output the cover letter content directly, without any explanatory text."
  subject_prompt_template :=
    "Candidate Resume Content:\n{resume_content}\n\nTarget Company: {company_name}\nCompany Description: {company_description}\nCompany Requirements: {company_requirements}\n\nPlease generate an enthusiastic and positive email subject line for {applicant_name}. Requirements:\n1. Concise and clear, no more than 50 characters\n2. Include company name\n3. Reflect enthusiasm and anticipation\n4. Positive and upbeat\n5. No special characters\n6. Write in English\n\nPlease output the subject line directly, without any explanatory text."

/-- `get_language_specific_prompt(company_name, mode)`: language from
the company name, `professional` selects the first set, anything else
falls into the `else:  # enthusiastic` branch. -/
def get_language_specific_prompt (company_name mode : String) : PromptConfig :=
  if detect_company_language company_name = "chinese" then
    if mode = "professional" then zhProfessionalPrompt else zhEnthusiasticPrompt
  else
    if mode = "professional" then enProfessionalPrompt else enEnthusiasticPrompt

/-- `template.format(...)` for the five placeholders the templates use.
Every template contains each placeholder at most in literal text and
the substituted values are only handed to the chat oracle, so the
sequential replacement agrees with Python simultaneous formatting on
the concrete templates of this file. -/
def renderTemplate (t resume company desc reqs applicant : String) : String :=
  ((((t.replace "{resume_content}" resume).replace "{company_name}" company).replace
      "{company_description}" desc).replace "{company_requirements}" reqs).replace
    "{applicant_name}" applicant

/-! ## The cache store (per-applicant JSON file, keyed by company) -/

/-- One record of the per-applicant cache file, with the exact fields
written by `save_cover_letter_to_cache`.  A JSON `null` letter is
represented as the empty string: both are falsy in the Python
truthiness test `if cached_letter and ...` that guards every cache
hit. -/
structure CacheRecord where
  company_name : String
  cover_letter : String
  subject : String
  mode : String
  cv_filename : String
  generated_at : String
  language : String
deriving DecidableEq

/-- The loaded cache file: a JSON object, i.e. an association list
with unique keys, company name to record. -/
abbrev Cache : Type := List (String × CacheRecord)

/-- Dictionary lookup `cache_data[company_name]` guarded by
`company_name in cache_data`. -/
def cacheLookup (cache : Cache) (company : String) : Option CacheRecord :=
  match cache with
  | [] => none
  | p :: t => if p.1 = company then some p.2 else cacheLookup t company

/-- `cache_data[company_name] = record`: replace an existing key or
append a new one (`save_cover_letter_to_cache`). -/
def cacheInsert (cache : Cache) (company : String) (r : CacheRecord) : Cache :=
  match cache with
  | [] => [(company, r)]
  | p :: t => if p.1 = company then (company, r) :: t else p :: cacheInsert t company r

/-! ## The content generator (`generate_cover_letter_and_subject`) -/

/-- Effect oracle for one generator call: file system, PDF extraction,
model loading, and the chat model, plus the timestamp written into new
cache records.  `chat sys user = none` models an exception raised
inside `chat`; `extractText` already returns `""` on failure exactly
as `extract_pdf_text` does. -/
structure GenEnv where
  fileExists : String → Bool
  extractText : String → String
  modelLoadOk : Bool
  chat : String → String → Option String
  now : String

/-- `os.path.join(CV_DIR, cv_filename)` with `CV_DIR = "CV"`. -/
def cvPath (cv_filename : String) : String := "CV/" ++ cv_filename

/-- The fallback subject `f"Internship Application – {company_name}"`. -/
def defaultSubject (company : String) : String :=
  "Internship Application – " ++ company

/-- Outcome of `generate_email_subject`: the subject together with the
number of chat invocations and of model-load attempts made. -/
structure SubjOutcome where
  subject : String
  chatCalls : Nat
  modelLoads : Nat
deriving DecidableEq

/-- `generate_email_subject(...)`.  `modelProvided` is true when the
caller passes `model` and `tok`; the `subject_prompt_template` presence
check of the source never fires because `get_language_specific_prompt`
always returns that key. -/
def generate_email_subject (env : GenEnv)
    (applicant cv company desc reqs mode : String) (modelProvided : Bool) :
    SubjOutcome :=
  let pc := get_language_specific_prompt company mode
  if !env.fileExists (cvPath cv) then ⟨defaultSubject company, 0, 0⟩
  else if env.extractText (cvPath cv) = "" then ⟨defaultSubject company, 0, 0⟩
  else if !modelProvided && !env.modelLoadOk then ⟨defaultSubject company, 0, 1⟩
  else
    let loads := if modelProvided then 0 else 1
    let user := renderTemplate pc.subject_prompt_template (env.extractText (cvPath cv))
      company desc reqs applicant
    match env.chat pc.system_prompt user with
    | some raw => ⟨parse_subject_output raw, 1, loads⟩
    | none => ⟨defaultSubject company, 1, loads⟩

/-- Outcome of the combined generator: the returned pair, the cache
file contents after the call, and the effect counters. -/
structure GenOutcome where
  letter : Option String
  subject : String
  cache : Cache
  chatCalls : Nat
  modelLoads : Nat
deriving DecidableEq

/-- The cache test of `generate_cover_letter_and_subject` and of the
custom-template variant: unless regeneration is forced, a record for
the company whose letter is truthy and whose `cv_filename` equals the
request's is a hit. -/
def cacheHitRecord (cache : Cache) (company cv : String) (force : Bool) :
    Option CacheRecord :=
  if force then none
  else
    match cacheLookup cache company with
    | some r =>
      if decide (r.cover_letter ≠ "") && decide (r.cv_filename = cv) then some r else none
    | none => none

/-- The regeneration path of `generate_cover_letter_and_subject`
(everything after the cache check): existence check, extraction, model
load, letter chat + `clean_cover_letter_content`, subject via
`generate_email_subject` with the loaded model, conditional cache
write. -/
def regeneratePath (env : GenEnv) (cache : Cache)
    (applicant cv company desc reqs mode : String) : GenOutcome :=
  if !env.fileExists (cvPath cv) then ⟨none, defaultSubject company, cache, 0, 0⟩
  else if env.extractText (cvPath cv) = "" then
    ⟨none, defaultSubject company, cache, 0, 0⟩
  else if !env.modelLoadOk then ⟨none, defaultSubject company, cache, 0, 1⟩
  else
    let pc := get_language_specific_prompt company mode
    let user := renderTemplate pc.user_prompt_template (env.extractText (cvPath cv))
      company desc reqs applicant
    let letter : Option String :=
      match env.chat pc.system_prompt user with
      | some raw => some (clean_cover_letter_content raw)
      | none => none
    let sres := generate_email_subject env applicant cv company desc reqs mode true
    let cache' : Cache :=
      match letter with
      | some l =>
        if l = "" then cache
        else cacheInsert cache company
          ⟨company, l, sres.subject, mode, cv, env.now, detect_company_language company⟩
      | none => cache
    ⟨letter, sres.subject, cache', 1 + sres.chatCalls, 1⟩

/-- `generate_cover_letter_and_subject(...)`: serve a fresh cache hit
when not forced, regenerate otherwise. -/
def generate_cover_letter_and_subject (env : GenEnv) (cache : Cache)
    (applicant cv company desc reqs mode : String) (force : Bool) : GenOutcome :=
  match cacheHitRecord cache company cv force with
  | some r => ⟨some r.cover_letter, r.subject, cache, 0, 0⟩
  | none => regeneratePath env cache applicant cv company desc reqs mode

/-! ## The custom-template generator
(`generate_cover_letter_with_custom_template`) -/

def customSystemZh : String :=
  "你是一位专业的求职顾问，擅长基于用户提供的模板生成个性化的cover letter。你需要根据候选人的简历、公司信息和用户提供的模板，生成个性化的求职信。请保持模板的基本结构和风格，同时针对具体公司进行个性化调整。"

def customSystemEn : String :=
  "You are a professional career advisor, skilled in generating personalized cover letters based on user-provided templates. You need to generate personalized cover letters based on the candidate\u0027s resume, company information, and user-provided template. Please maintain the basic structure and style of the template while making personalized adjustments for the specific company."

def customUserZh (custom_template resume_content company_name company_description
    company_requirements applicant_name : String) : String :=
  "用户提供的模板：\n" ++ custom_template ++
  "\n\n候选人简历内容：\n" ++ resume_content ++
  "\n\n目标公司：" ++ company_name ++
  "\n公司简介：" ++ company_description ++
  "\n公司要求：" ++ company_requirements ++
  "\n\n请基于用户提供的模板，为" ++ applicant_name ++
  "生成一封个性化的cover letter。要求：\n1. 保持模板的基本结构和风格\n2. 将模板中的占位符替换为具体信息\n3. 针对目标公司进行个性化调整\n4. 确保内容专业、有针对性\n5. 控制在200-300字左右\n6. 不要包含地址、日期等格式信息，直接输出邮件正文内容\n\n请直接输出cover letter内容，不要包含任何说明文字。"

def customSubjectZh (resume_content company_name company_description
    company_requirements applicant_name : String) : String :=
  "候选人简历内容：\n" ++ resume_content ++
  "\n\n目标公司：" ++ company_name ++
  "\n公司简介：" ++ company_description ++
  "\n公司要求：" ++ company_requirements ++
  "\n\n请为" ++ applicant_name ++
  "生成一个专业的邮件主题行。要求：\n1. 简洁明了，不超过50个字符\n2. 包含公司名称\n3. 体现求职意向\n4. 专业正式\n5. 不要包含特殊字符\n6. 使用中文\n\n请直接输出主题行，不要包含任何说明文字。"

def customUserEn (custom_template resume_content company_name company_description
    company_requirements applicant_name : String) : String :=
  "User-provided template:\n" ++ custom_template ++
  "\n\nCandidate Resume Content:\n" ++ resume_content ++
  "\n\nTarget Company: " ++ company_name ++
  "\nCompany Description: " ++ company_description ++
  "\nCompany Requirements: " ++ company_requirements ++
  "\n\nPlease generate a personalized cover letter for " ++ applicant_name ++
  " based on the user-provided template. Requirements:\n1. Maintain the basic structure and style of the template\n2. Replace placeholders in the template with specific information\n3. Make personalized adjustments for the target company\n4. Ensure professional and targeted content\n5. Keep within 200-300 words\n6. Do not include address, date, or other formatting information\n\nPlease output the cover letter content directly, without any explanatory text."

def customSubjectEn (resume_content company_name company_description
    company_requirements applicant_name : String) : String :=
  "Candidate Resume Content:\n" ++ resume_content ++
  "\n\nTarget Company: " ++ company_name ++
  "\nCompany Description: " ++ company_description ++
  "\nCompany Requirements: " ++ company_requirements ++
  "\n\nPlease generate a professional email subject line for " ++ applicant_name ++
  ". Requirements:\n1. Concise and clear, no more than 50 characters\n2. Include company name\n3. Reflect job application intent\n4. Professional and formal\n5. No special characters\n6. Write in English\n\nPlease output the subject line directly, without any explanatory text."

def customSubjectSystem : String :=
  "You are a professional career advisor, skilled in generating email subject lines for job applications."

/-- The fallback subject of the custom-template path:
`f"求职申请 - {applicant_name} - {company_name}"`. -/
def customFallbackSubject (applicant company : String) : String :=
  "求职申请 - " ++ applicant ++ " - " ++ company

/-- `generate_cover_letter_with_custom_template(...)`: the same cache
check as the plain generator (the supplied template plays no part in
it), then regeneration from the custom prompts; a successful
regeneration is cached with the literal mode string `"custom"`. -/
def generate_cover_letter_with_custom_template (env : GenEnv) (cache : Cache)
    (applicant cv company desc reqs custom_template : String) (force : Bool) :
    GenOutcome :=
  match cacheHitRecord cache company cv force with
  | some r => ⟨some r.cover_letter, r.subject, cache, 0, 0⟩
  | none =>
    if !env.fileExists (cvPath cv) then
      ⟨none, customFallbackSubject applicant company, cache, 0, 0⟩
    else if env.extractText (cvPath cv) = "" then
      ⟨none, customFallbackSubject applicant company, cache, 0, 0⟩
    else if !env.modelLoadOk then
      ⟨none, customFallbackSubject applicant company, cache, 0, 1⟩
    else
      let resume := env.extractText (cvPath cv)
      let language := detect_company_language company
      let sys := if language = "chinese" then customSystemZh else customSystemEn
      let user :=
        if language = "chinese" then
          customUserZh custom_template resume company desc reqs applicant
        else customUserEn custom_template resume company desc reqs applicant
      let subjPrompt :=
        if language = "chinese" then
          customSubjectZh resume company desc reqs applicant
        else customSubjectEn resume company desc reqs applicant
      let letter : Option String :=
        match env.chat sys user with
        | some raw => some (clean_cover_letter_content raw)
        | none => none
      let subject : String :=
        match env.chat customSubjectSystem subjPrompt with
        | some raw => parse_subject_output raw
        | none => customFallbackSubject applicant company
      let cache' : Cache :=
        match letter with
        | some l =>
          if l = "" then cache
          else cacheInsert cache company
            ⟨company, l, subject, "custom", cv, env.now, language⟩
        | none => cache
      ⟨letter, subject, cache', 2, 1⟩

/-! ## The configuration-backed mode table (`get_cover_letter_mode`) -/

def defaultModeConfig : List (String × String) :=
  [("name", "默认模式"),
   ("system_prompt", "你是一位专业的求职顾问，擅长撰写高质量的cover letter。"),
   ("user_prompt_template",
    "候选人简历内容：\n{resume_content}\n\n目标公司：{company_name}\n公司简介：{company_description}\n公司要求：{company_requirements}\n\n请为{applicant_name}生成一封专业的cover letter。"),
   ("subject_prompt_template",
    "候选人简历内容：\n{resume_content}\n\n目标公司：{company_name}\n公司简介：{company_description}\n公司要求：{company_requirements}\n\n请为{applicant_name}生成一个专业的邮件主题行。")]

/-- A Python `KeyError` escaping `get_cover_letter_mode`. -/
inductive CfgError
  | keyError
deriving DecidableEq

/-- The loaded `cover_letter_config.json` object.  `default_mode` and
`cover_letter_modes` are `some` exactly when the key is present;
`extraKeys` stands for any further keys of the object (they only
matter for the dict truthiness test `if not config`). -/
structure ClConfig where
  default_mode : Option String
  cover_letter_modes : Option (List (String × List (String × String)))
  extraKeys : List String
deriving DecidableEq

/-- Python truthiness of the configuration dict. -/
def ClConfig.truthy (c : ClConfig) : Bool :=
  c.default_mode.isSome || c.cover_letter_modes.isSome || !c.extraKeys.isEmpty

/-- JSON-object lookup used for `mode_name in modes` / `modes[key]`. -/
def jsonLookup (m : List (String × List (String × String))) (k : String) :
    Option (List (String × String)) :=
  match m with
  | [] => none
  | p :: t => if p.1 = k then some p.2 else jsonLookup t k

/-- The `else:` branch of `get_cover_letter_mode`:
`config.get("default_mode", "professional")` then
`config["cover_letter_modes"][default_mode]`, either subscript may
raise `KeyError`. -/
def defaultModeBranch (c : ClConfig) : Except CfgError (List (String × String)) :=
  let dm := c.default_mode.getD "professional"
  match c.cover_letter_modes with
  | none => .error .keyError
  | some modes =>
    match jsonLookup modes dm with
    | some v => .ok v
    | none => .error .keyError

/-- `get_cover_letter_mode(config, mode_name)`.  A falsy config (absent
or empty) yields the built-in default; otherwise a truthy `mode_name`
is looked up in `config["cover_letter_modes"]` (whose mere access can
raise `KeyError`), and every remaining case goes through the
`default_mode` branch. -/
def get_cover_letter_mode (config : Option ClConfig) (mode_name : Option String) :
    Except CfgError (List (String × String)) :=
  match config with
  | none => .ok defaultModeConfig
  | some c =>
    if !c.truthy then .ok defaultModeConfig
    else
      match mode_name with
      | some m =>
        if m = "" then defaultModeBranch c
        else
          match c.cover_letter_modes with
          | none => .error .keyError
          | some modes =>
            match jsonLookup modes m with
            | some v => .ok v
            | none => defaultModeBranch c
      | none => defaultModeBranch c

/-! ## The model router (`ModelRouter` of `util/__init__.py`) -/

/-- The `DeepSeekAPIProcessor` after construction: the key and the
result of the `_test_api_key` probe (that probe traps every exception
and only ever returns a boolean). -/
structure DeepSeekProc where
  api_key : String
  api_key_valid : Bool
deriving DecidableEq

/-- Environment of a `ModelRouter` construction: whether the `openai`
package imported, `os.getenv("DEEPSEEK_API_KEY")`, the outcome of the
key-validation probe, and whether the local model load succeeds. -/
structure RouterEnv where
  deepseekAvailable : Bool
  envApiKey : Option String
  testApiKey : String → Bool
  localLoadOk : Bool

/-- Errors that can escape `ModelRouter.__init__`. -/
inductive RouterError
  | importError
  | localLoadFailed
deriving DecidableEq

/-- `DeepSeekAPIProcessor(api_key)`: raises `ImportError` when the
`openai` package is missing, otherwise always constructs, recording
the probe verdict in `api_key_valid`. -/
def mkDeepSeekProcessor (env : RouterEnv) (api_key : String) :
    Except RouterError DeepSeekProc :=
  if !env.deepseekAvailable then .error .importError
  else .ok ⟨api_key, env.testApiKey api_key⟩

/-- The backend a successfully constructed router ends up with. -/
inductive RouterBackend
  | remote (p : DeepSeekProc)
  | localModel
deriving DecidableEq

/-- `ModelRouter._load_local_model()`: either the local model is
loaded, or `Exception("Failed to load local model: ...")` propagates
out of the constructor. -/
def loadLocalModel (env : RouterEnv) : Except RouterError RouterBackend :=
  if env.localLoadOk then .ok .localModel else .error .localLoadFailed

/-- Python truthiness of the optional API-key strings. -/
def truthyKey (k : Option String) : Option String :=
  match k with
  | some s => if s = "" then none else some s
  | none => none

/-- `ModelRouter.__init__(model_name, api_key, ...)`: for
`"deepseek-chat"`, a missing key falls straight back to the local
model; an `ImportError` or any construction failure of the processor
falls back; an invalid key (probe returned false) falls back; only a
validated key selects the remote backend.  Any other model name loads
the local model directly. -/
def mkModelRouter (env : RouterEnv) (model_name : String) (api_key : Option String) :
    Except RouterError RouterBackend :=
  if model_name = "deepseek-chat" then
    match truthyKey api_key with
    | none =>
      match truthyKey env.envApiKey with
      | none => loadLocalModel env
      | some k =>
        match mkDeepSeekProcessor env k with
        | .error _ => loadLocalModel env
        | .ok p => if p.api_key_valid then .ok (.remote p) else loadLocalModel env
    | some k =>
      match mkDeepSeekProcessor env k with
      | .error _ => loadLocalModel env
      | .ok p => if p.api_key_valid then .ok (.remote p) else loadLocalModel env
  else loadLocalModel env

/-! ## Line-level view of the letter cleaner -/

/-- A line none of the three skip patterns matches (after stripping),
i.e. a line `clean_cover_letter_content` never removes and, by the
claim, should never emit. -/
def noSubjLine (l : List Char) : Bool := !(isSubjectLine (pyStrip l))

/-- All lines of a string, as `split('\n')` produces them, satisfy
`noSubjLine`. -/
def linesOk (s : List Char) : Bool := (splitOnNl s).all noSubjLine

/-! ## Spec-side predicates and concrete sample inputs -/

/-- ASCII lower-casing, for stating the spec's case-insensitive
claim. -/
def asciiLower (c : Char) : Char :=
  if 'A' ≤ c && c ≤ 'Z' then Char.ofNat (c.toNat + 32) else c

/-- Modelled from the spec: a line that begins with a "Subject:"-like
prefix *case-insensitively* (any mix of upper and lower case), or with
one of the two non-English labels.  This is the removal predicate the
spec claims for `clean_cover_letter_content`; it is compared against
the code's `isSubjectLine`. -/
def ciSubjectLine (l : List Char) : Bool :=
  labelColon "subject".data (l.map asciiLower) ||
  labelColon ['主', '题'] l || labelColon ['邮', '件', '主', '题'] l

/-- The spec's ellipsis marker at the end of a truncated subject. -/
def endsWithEllipsis (s : String) : Bool :=
  s.data.reverse.take 3 = ['.', '.', '.']

/-- A well-typed but never-successfully-generated cache record: empty
letter (as a JSON `null` or `""` letter deserialises), matching CV. -/
def emptyLetterRecord : CacheRecord :=
  ⟨"Acme", "", "Cached subject", "professional", "cv.pdf", "t0", "english"⟩

def cacheWithEmptyLetter : Cache := [("Acme", emptyLetterRecord)]

/-- A cache record as a successful professional run writes it. -/
def freshRecord : CacheRecord :=
  ⟨"Acme", "Dear team, I am writing to apply.", "Application - Acme",
    "professional", "cv.pdf", "t0", "english"⟩

def cacheWithFresh : Cache := [("Acme", freshRecord)]

/-- An environment in which every effect succeeds and the model always
answers with a fixed short text. -/
def happyEnv : GenEnv where
  fileExists := fun _ => true
  extractText := fun _ => "resume text"
  modelLoadOk := true
  chat := fun _ _ => some "Hello committee"
  now := "2024-01-01T00:00:00"

/-- An environment whose CV file is missing. -/
def noFileEnv : GenEnv where
  fileExists := fun _ => false
  extractText := fun _ => ""
  modelLoadOk := true
  chat := fun _ _ => some "Hello committee"
  now := "2024-01-01T00:00:00"

/-- Router environment: `openai` importable, probe rejects every key,
local model loads. -/
def routerEnvInvalidKey : RouterEnv where
  deepseekAvailable := true
  envApiKey := none
  testApiKey := fun _ => false
  localLoadOk := true

/-- Router environment: probe rejects every key and the local model
load fails as well. -/
def routerEnvBothFail : RouterEnv where
  deepseekAvailable := true
  envApiKey := none
  testApiKey := fun _ => false
  localLoadOk := false

/-- A truthy configuration whose `cover_letter_modes` table contains
neither the requested mode nor the default mode. -/
def cfgMissingModes : ClConfig := ⟨some "professional", some [], []⟩

/-! ## Lemmas about the string helpers -/

theorem stripTrail_length_le (l : List Char) : (stripTrail l).length ≤ l.length := by
  induction l with
  | nil => simp [stripTrail]
  | cons c r ih =>
    rw [stripTrail]
    split
    · simp
    · simpa using Nat.succ_le_succ ih

theorem pyStrip_length_le (l : List Char) : (pyStrip l).length ≤ l.length :=
  le_trans (stripTrail_length_le _) (List.dropWhile_suffix isSpc).sublist.length_le

theorem collapseAux_length_le (b : Bool) (l : List Char) :
    (collapseAux b l).length ≤ l.length := by
  induction l generalizing b with
  | nil => simp [collapseAux]
  | cons c r ih =>
    rw [collapseAux]
    split
    · split
      · exact le_trans (ih true) (Nat.le_succ _)
      · simpa using Nat.succ_le_succ (ih true)
    · simpa using Nat.succ_le_succ (ih false)

theorem take47_dots_length (l : List Char) :
    (l.take 47 ++ ['.', '.', '.']).length ≤ 50 := by
  rw [List.length_append]
  have h := List.length_take_le 47 l
  simp only [List.length_cons, List.length_nil]
  omega

theorem parseSubjectCore_length_le (raw : List Char) :
    (parseSubjectCore raw).length ≤ 50 := by
  simp only [parseSubjectCore]
  split
  · decide
  · split
    · split
      · decide
      · exact le_trans (le_trans (pyStrip_length_le _) (List.length_filter_le _ _))
          (take47_dots_length _)
    · next h =>
      split
      · decide
      · exact le_trans (le_trans (pyStrip_length_le _) (List.length_filter_le _ _))
          (by omega)

/-- C4: for every input string, the length of the string returned by
`parse_subject_output` is at most 50 characters. -/
theorem subject_length_bound (x : String) : (parse_subject_output x).length ≤ 50 :=
  parseSubjectCore_length_le x.data

theorem stripTrail_subset (l : List Char) (a : Char) (h : a ∈ stripTrail l) : a ∈ l := by
  induction l with
  | nil => simp [stripTrail] at h
  | cons c r ih =>
    rw [stripTrail] at h
    split at h
    · simp at h
    · rcases List.mem_cons.mp h with h | h
      · exact h ▸ List.mem_cons_self c r
      · exact List.mem_cons_of_mem c (ih h)

theorem pyStrip_subset (l : List Char) (a : Char) (h : a ∈ pyStrip l) : a ∈ l :=
  (List.dropWhile_suffix isSpc).subset (stripTrail_subset _ a h)

/-- C6 (counterexample): a 51-character input is truncated, yet the
result does not end with an ellipsis marker — the character filter
that runs after truncation deletes the appended dots. -/
theorem subject_truncation_no_ellipsis_cex :
    50 < (subjectCleanup (String.mk (List.replicate 51 'a')).data).length ∧
    endsWithEllipsis (parse_subject_output (String.mk (List.replicate 51 'a'))) = false := by
  decide

/-- C6 (amended): when the cleaned-up subject exceeds 50 characters,
the returned subject has at most 47 characters and contains no dot at
all: the `"..."` appended by the truncation step is removed by the
subsequent whitelist filter, so no ellipsis marker survives. -/
theorem subject_truncation_shape (x : String)
    (h : 50 < (subjectCleanup x.data).length) :
    (parse_subject_output x).length ≤ 47 ∧ '.' ∉ (parse_subject_output x).data := by
  have hne : ¬ (x.data.isEmpty = true) := by
    intro he
    rw [List.isEmpty_iff] at he
    rw [he] at h
    have h0 : (subjectCleanup ([] : List Char)).length = 0 := by decide
    omega
  show (parseSubjectCore x.data).length ≤ 47 ∧ '.' ∉ parseSubjectCore x.data
  simp only [parseSubjectCore]
  rw [if_neg hne]
  simp only [subjectCleanup] at h
  rw [if_pos h, List.filter_append]
  have hdots : (['.', '.', '.'] : List Char).filter keepChar = [] := by decide
  rw [hdots, List.append_nil]
  split
  · exact ⟨by decide, by decide⟩
  · constructor
    · exact le_trans (pyStrip_length_le _)
        (le_trans (List.length_filter_le _ _) (List.length_take_le _ _))
    · intro hmem
      have h2 := pyStrip_subset _ _ hmem
      have h3 := (List.mem_filter.mp h2).2
      exact absurd h3 (by decide)

/-! ## Idempotence analysis of the subject sanitizer -/

theorem keep_not_quote (c : Char) (h : keepChar c = true) : isQuoteChar c = false := by
  cases hq : isQuoteChar c with
  | false => rfl
  | true =>
    exfalso
    rcases Bool.or_eq_true_iff.mp hq with h34 | h39
    · rw [decide_eq_true_iff] at h34
      subst h34
      exact absurd h (by decide)
    · rw [decide_eq_true_iff] at h39
      subst h39
      exact absurd h (by decide)

theorem keep_ne_colon (c : Char) (h : keepChar c = true) : c ≠ ':' := by
  intro he
  subst he
  exact absurd h (by decide)

theorem dropLeadingQuote_of_keep (l : List Char)
    (h : ∀ a ∈ l, keepChar a = true) : dropLeadingQuote l = l := by
  cases l with
  | nil => rfl
  | cons c r =>
    rw [dropLeadingQuote, keep_not_quote c (h c (List.mem_cons_self c r))]
    simp

theorem dropQuotes_of_keep (l : List Char)
    (h : ∀ a ∈ l, keepChar a = true) : dropQuotes l = l := by
  rw [dropQuotes, dropTrailingQuote, dropLeadingQuote_of_keep l h,
    dropLeadingQuote_of_keep l.reverse, List.reverse_reverse]
  intro a ha
  exact h a (List.mem_reverse.mp ha)

theorem dropSubjLabel_of_keep (l : List Char)
    (h : ∀ a ∈ l, keepChar a = true) : dropSubjLabel l = l := by
  cases l with
  | nil => rfl
  | cons c r =>
    rw [dropSubjLabel]
    split
    · rcases hd : (r.drop 6).dropWhile isSpc with _ | ⟨c2, r4⟩
      · rfl
      · have hc2 : c2 ∈ r := by
          have : c2 ∈ (r.drop 6).dropWhile isSpc := by rw [hd]; exact List.mem_cons_self _ _
          exact List.mem_of_mem_drop ((List.dropWhile_suffix isSpc).subset this)
        have : c2 ≠ ':' := keep_ne_colon c2 (h c2 (List.mem_cons_of_mem c hc2))
        simp [this]
    · rfl

theorem collapseAux_subset (l : List Char) (b : Bool) (a : Char)
    (h : a ∈ collapseAux b l) : a = ' ' ∨ a ∈ l := by
  induction l generalizing b with
  | nil => simp [collapseAux] at h
  | cons c r ih =>
    rw [collapseAux] at h
    split at h
    · split at h
      · rcases ih true h with h | h
        · exact Or.inl h
        · exact Or.inr (List.mem_cons_of_mem c h)
      · rcases List.mem_cons.mp h with h | h
        · exact Or.inl h
        · rcases ih true h with h | h
          · exact Or.inl h
          · exact Or.inr (List.mem_cons_of_mem c h)
    · rcases List.mem_cons.mp h with h | h
      · exact Or.inr (h ▸ List.mem_cons_self c r)
      · rcases ih false h with h | h
        · exact Or.inl h
        · exact Or.inr (List.mem_cons_of_mem c h)

theorem collapseAux_keep (l : List Char) (b : Bool)
    (h : ∀ a ∈ l, keepChar a = true) : ∀ a ∈ collapseAux b l, keepChar a = true := by
  intro a ha
  rcases collapseAux_subset l b a ha with h1 | h1
  · subst h1; decide
  · exact h a h1

theorem collapseAux_idem (l : List Char) (b : Bool) :
    collapseAux b (collapseAux b l) = collapseAux b l := by
  induction l generalizing b with
  | nil => simp [collapseAux]
  | cons c r ih =>
    by_cases hws : isSpc c = true
    · cases b with
      | true => simp [collapseAux, hws, ih true]
      | false =>
        have hsp : isSpc ' ' = true := by decide
        simp [collapseAux, hws, hsp, ih true]
    · have hf : isSpc c = false := by simpa using hws
      simp [collapseAux, hf, ih false]

theorem getLast?_cons_of_some (a c : Char) (m : List Char)
    (h : m.getLast? = some c) : (a :: m).getLast? = some c := by
  cases m with
  | nil => simp at h
  | cons x t => rw [List.getLast?_cons_cons]; exact h

theorem collapseAux_getLast? (l : List Char) (b : Bool) (c : Char)
    (h : l.getLast? = some c) (hws : isSpc c = false) :
    (collapseAux b l).getLast? = some c := by
  induction l generalizing b with
  | nil => simp at h
  | cons a r ih =>
    cases r with
    | nil =>
      simp only [List.getLast?_singleton, Option.some.injEq] at h
      subst h
      rw [collapseAux, hws]
      simp [collapseAux]
    | cons x t =>
      rw [List.getLast?_cons_cons] at h
      by_cases ha : isSpc a = true
      · cases b with
        | true =>
          rw [collapseAux, if_pos ha]
          simp only [if_true]
          exact ih true h
        | false =>
          rw [collapseAux, if_pos ha]
          simp only [Bool.false_eq_true, if_false]
          exact getLast?_cons_of_some ' ' c _ (ih true h)
      · have hf : isSpc a = false := by simpa using ha
        rw [collapseAux, if_neg ha]
        exact getLast?_cons_of_some a c _ (ih false h)

theorem collapseAux_cons_not_ws (c : Char) (r : List Char) (b : Bool)
    (h : isSpc c = false) : collapseAux b (c :: r) = c :: collapseAux false r := by
  rw [collapseAux, h]
  simp

theorem dropWhile_head?_not (l : List Char) (c : Char)
    (h : (l.dropWhile isSpc).head? = some c) : isSpc c = false := by
  induction l with
  | nil => simp at h
  | cons a r ih =>
    by_cases ha : isSpc a = true
    · rw [List.dropWhile_cons, if_pos ha] at h
      exact ih h
    · rw [List.dropWhile_cons, if_neg ha] at h
      simp only [List.head?_cons, Option.some.injEq] at h
      subst h
      simpa using ha

theorem stripTrail_head? (l : List Char) :
    stripTrail l = [] ∨ (stripTrail l).head? = l.head? := by
  cases l with
  | nil => exact Or.inl rfl
  | cons c r =>
    rw [stripTrail]
    split
    · exact Or.inl rfl
    · exact Or.inr rfl

theorem stripTrail_getLast?_not_ws (l : List Char) (c : Char)
    (h : (stripTrail l).getLast? = some c) : isSpc c = false := by
  induction l with
  | nil => simp [stripTrail] at h
  | cons a r ih =>
    rw [stripTrail] at h
    split at h
    · simp at h
    · next hcond =>
      rcases hst : stripTrail r with _ | ⟨x, t⟩
      · rw [hst] at h
        simp only [List.getLast?_singleton, Option.some.injEq] at h
        subst h
        rw [hst] at hcond
        simp only [List.isEmpty_nil, Bool.and_true] at hcond
        simpa using hcond
      · rw [hst, List.getLast?_cons_cons] at h
        exact ih (hst ▸ h)

theorem pyStrip_getLast?_not_ws (l : List Char) (c : Char)
    (h : (pyStrip l).getLast? = some c) : isSpc c = false :=
  stripTrail_getLast?_not_ws _ c h

theorem pyStrip_head?_not_ws (l : List Char) (c : Char)
    (h : (pyStrip l).head? = some c) : isSpc c = false := by
  rcases stripTrail_head? (l.dropWhile isSpc) with he | he
  · rw [pyStrip, he] at h
    simp at h
  · rw [pyStrip, he] at h
    exact dropWhile_head?_not l c h

theorem stripTrail_eq_self (l : List Char)
    (h : ∀ c, l.getLast? = some c → isSpc c = false) : stripTrail l = l := by
  induction l with
  | nil => rfl
  | cons a r ih =>
    cases r with
    | nil =>
      rw [stripTrail, h a (by simp)]
      simp [stripTrail]
    | cons x t =>
      have hr : stripTrail (x :: t) = x :: t := by
        apply ih
        intro c hc
        exact h c (by rw [List.getLast?_cons_cons]; exact hc)
      rw [stripTrail, hr]
      simp

theorem pyStrip_eq_self (l : List Char)
    (h1 : ∀ c, l.head? = some c → isSpc c = false)
    (h2 : ∀ c, l.getLast? = some c → isSpc c = false) : pyStrip l = l := by
  have hd : l.dropWhile isSpc = l := by
    cases l with
    | nil => rfl
    | cons a r =>
      rw [List.dropWhile_cons, h1 a rfl]
      simp
  rw [pyStrip, hd]
  exact stripTrail_eq_self l h2

theorem pyStrip_idem (l : List Char) : pyStrip (pyStrip l) = pyStrip l :=
  pyStrip_eq_self _ (pyStrip_head?_not_ws l) (pyStrip_getLast?_not_ws l)

theorem parseSubjectCore_ne_nil (raw : List Char) : parseSubjectCore raw ≠ [] := by
  simp only [parseSubjectCore]
  split
  · decide
  · split <;> split
    · decide
    · next h => exact fun hc => h (List.isEmpty_iff.mpr hc)
    · decide
    · next h => exact fun hc => h (List.isEmpty_iff.mpr hc)

theorem parseSubjectCore_keep (raw : List Char) :
    ∀ a ∈ parseSubjectCore raw, keepChar a = true := by
  have hdef : ∀ a ∈ defaultSubjectChars, keepChar a = true := by decide
  intro a ha
  simp only [parseSubjectCore] at ha
  split at ha
  · exact hdef a ha
  · split at ha <;> split at ha
    · exact hdef a ha
    · exact (List.mem_filter.mp (pyStrip_subset _ a ha)).2
    · exact hdef a ha
    · exact (List.mem_filter.mp (pyStrip_subset _ a ha)).2

theorem parseSubjectCore_stripped (raw : List Char) :
    pyStrip (parseSubjectCore raw) = parseSubjectCore raw := by
  simp only [parseSubjectCore]
  split
  · decide
  · split <;> split
    · decide
    · exact pyStrip_idem _
    · decide
    · exact pyStrip_idem _

theorem collapseWs_getLast? (l : List Char) (c : Char)
    (h : l.getLast? = some c) (hws : isSpc c = false) :
    (collapseWs l).getLast? = some c :=
  collapseAux_getLast? l false c h hws

theorem parseSubjectCore_of_normal (y : List Char) (h1 : y ≠ [])
    (h2 : ∀ a ∈ y, keepChar a = true) (h3 : pyStrip y = y) (h4 : y.length ≤ 50) :
    parseSubjectCore y = collapseWs y := by
  obtain ⟨c, t, rfl⟩ : ∃ c t, y = c :: t := by
    cases y with
    | nil => exact absurd rfl h1
    | cons c t => exact ⟨c, t, rfl⟩
  have hhead : isSpc c = false := pyStrip_head?_not_ws _ c (by rw [h3]; rfl)
  obtain ⟨d, hd⟩ : ∃ d, (c :: t).getLast? = some d :=
    Option.isSome_iff_exists.mp (List.getLast?_isSome.mpr h1)
  have hdws : isSpc d = false := pyStrip_getLast?_not_ws _ d (by rw [h3]; exact hd)
  have hcw_cons : collapseWs (c :: t) = c :: collapseAux false t :=
    collapseAux_cons_not_ws c t false hhead
  have hkeepcw : ∀ a ∈ collapseWs (c :: t), keepChar a = true :=
    collapseAux_keep _ false h2
  have e2 : dropQuotes (c :: t) = c :: t := dropQuotes_of_keep _ h2
  have e3 : dropSubjLabel (c :: t) = c :: t := dropSubjLabel_of_keep _ h2
  have e5 : ¬ 50 < (collapseWs (c :: t)).length := by
    have h5 := collapseAux_length_le false (c :: t)
    have h6 : collapseWs (c :: t) = collapseAux false (c :: t) := rfl
    rw [h6]
    omega
  have e6 : (collapseWs (c :: t)).filter keepChar = collapseWs (c :: t) :=
    List.filter_eq_self.mpr hkeepcw
  have e7 : pyStrip (collapseWs (c :: t)) = collapseWs (c :: t) := by
    apply pyStrip_eq_self
    · intro e he
      rw [hcw_cons] at he
      simp only [List.head?_cons, Option.some.injEq] at he
      rw [← he]
      exact hhead
    · intro e he
      rw [collapseWs_getLast? (c :: t) d hd hdws] at he
      simp only [Option.some.injEq] at he
      rw [← he]
      exact hdws
  simp only [parseSubjectCore, h3, e2, e3, if_neg e5, e6, e7]
  rw [hcw_cons]
  simp

/-- C5 (counterexample): `parse_subject_output` is not idempotent.  On
`"a .. b"` the whitelist filter removes the two dots and leaves two
adjacent spaces, which a second application collapses to one. -/
theorem subject_clean_not_idempotent_cex :
    parse_subject_output (parse_subject_output "a .. b") ≠
      parse_subject_output "a .. b" := by
  decide

/-- C5 (amended): `parse_subject_output` is not idempotent in general
(the character filter can merge whitespace runs), but a second
application reaches a fixed point: applying it three times agrees with
applying it twice on every input. -/
theorem subject_clean_third_eq_second (x : String) :
    parse_subject_output (parse_subject_output (parse_subject_output x)) =
      parse_subject_output (parse_subject_output x) := by
  have core : ∀ z : List Char,
      parseSubjectCore (parseSubjectCore (parseSubjectCore z)) =
        parseSubjectCore (parseSubjectCore z) := by
    intro z
    have hn1 := parseSubjectCore_ne_nil z
    have hk1 := parseSubjectCore_keep z
    have hs1 := parseSubjectCore_stripped z
    have hl1 := parseSubjectCore_length_le z
    set y := parseSubjectCore z with hy
    have e1 : parseSubjectCore y = collapseWs y :=
      parseSubjectCore_of_normal y hn1 hk1 hs1 hl1
    obtain ⟨c, t, hct⟩ : ∃ c t, y = c :: t := by
      cases hyy : y with
      | nil => exact absurd hyy hn1
      | cons c t => exact ⟨c, t, rfl⟩
    have hhead : isSpc c = false := pyStrip_head?_not_ws y c (by rw [hs1, hct]; rfl)
    have hcw_cons : collapseWs y = c :: collapseAux false t := by
      rw [hct]
      exact collapseAux_cons_not_ws c t false hhead
    have hcw_ne : collapseWs y ≠ [] := by
      rw [hcw_cons]
      exact List.cons_ne_nil c _
    have hk2 : ∀ a ∈ collapseWs y, keepChar a = true := collapseAux_keep y false hk1
    obtain ⟨d, hd⟩ : ∃ d, y.getLast? = some d :=
      Option.isSome_iff_exists.mp (List.getLast?_isSome.mpr hn1)
    have hdws : isSpc d = false := pyStrip_getLast?_not_ws y d (by rw [hs1]; exact hd)
    have hs2 : pyStrip (collapseWs y) = collapseWs y := by
      apply pyStrip_eq_self
      · intro e he
        rw [hcw_cons] at he
        simp only [List.head?_cons, Option.some.injEq] at he
        rw [← he]
        exact hhead
      · intro e he
        rw [collapseWs_getLast? y d hd hdws] at he
        simp only [Option.some.injEq] at he
        rw [← he]
        exact hdws
    have hl2 : (collapseWs y).length ≤ 50 :=
      le_trans (collapseAux_length_le false y) hl1
    have e2 : parseSubjectCore (collapseWs y) = collapseWs (collapseWs y) :=
      parseSubjectCore_of_normal _ hcw_ne hk2 hs2 hl2
    rw [e1, e2]
    exact collapseAux_idem y false
  exact congrArg String.mk (core x.data)

/-- C6 witness: the amended truncation property instantiated at the
concrete 51-character input. -/
theorem subject_truncation_shape_witness :
    50 < (subjectCleanup (String.mk (List.replicate 51 'a')).data).length ∧
    ((parse_subject_output (String.mk (List.replicate 51 'a'))).length ≤ 47 ∧
      '.' ∉ (parse_subject_output (String.mk (List.replicate 51 'a'))).data) :=
  ⟨by decide, subject_truncation_shape (String.mk (List.replicate 51 'a')) (by decide)⟩

/-! ## Lemmas about lines, join and strip -/

theorem splitOnNl_ne_nil (s : List Char) : splitOnNl s ≠ [] := by
  cases s with
  | nil => simp [splitOnNl]
  | cons c t =>
    rw [splitOnNl]
    split
    · simp
    · split
      · simp
      · simp

theorem splitOnNl_cons_nl (t : List Char) : splitOnNl ('\n' :: t) = [] :: splitOnNl t := by
  rw [splitOnNl, if_pos rfl]

theorem splitOnNl_cons_ne (c : Char) (t : List Char) (hc : ¬ c = '\n')
    (h : List Char) (hs : List (List Char)) (ht : splitOnNl t = h :: hs) :
    splitOnNl (c :: t) = (c :: h) :: hs := by
  rw [splitOnNl, if_neg hc, ht]

theorem splitOnNl_mem_chars (s : List Char) (l : List Char) (a : Char)
    (hl : l ∈ splitOnNl s) (ha : a ∈ l) : a ∈ s := by
  induction s generalizing l with
  | nil =>
    simp [splitOnNl] at hl
    subst hl
    simp at ha
  | cons c t ih =>
    rw [splitOnNl] at hl
    split at hl
    · rcases List.mem_cons.mp hl with h | h
      · subst h; simp at ha
      · exact List.mem_cons_of_mem c (ih l h ha)
    · rcases hsp : splitOnNl t with _ | ⟨h0, hs0⟩
      · exact absurd hsp (splitOnNl_ne_nil t)
      · rw [hsp] at hl
        rcases List.mem_cons.mp hl with h | h
        · subst h
          rcases List.mem_cons.mp ha with h | h
          · exact h ▸ List.mem_cons_self c t
          · exact List.mem_cons_of_mem c
              (ih h0 (hsp ▸ List.mem_cons_self h0 hs0) h)
        · exact List.mem_cons_of_mem c (ih l (hsp ▸ List.mem_cons_of_mem h0 h) ha)

theorem splitOnNl_no_nl (s : List Char) (l : List Char) (hl : l ∈ splitOnNl s) :
    '\n' ∉ l := by
  induction s generalizing l with
  | nil =>
    simp [splitOnNl] at hl
    subst hl
    simp
  | cons c t ih =>
    rw [splitOnNl] at hl
    split at hl
    · rcases List.mem_cons.mp hl with h | h
      · subst h; simp
      · exact ih l h
    · next hc =>
      rcases hsp : splitOnNl t with _ | ⟨h0, hs0⟩
      · exact absurd hsp (splitOnNl_ne_nil t)
      · rw [hsp] at hl
        rcases List.mem_cons.mp hl with h | h
        · subst h
          intro hmem
          rcases List.mem_cons.mp hmem with h | h
          · exact hc h.symm
          · exact ih h0 (hsp ▸ List.mem_cons_self h0 hs0) h
        · exact ih l (hsp ▸ List.mem_cons_of_mem h0 h)

theorem splitOnNl_append_nl (a rest : List Char) (ha : '\n' ∉ a) :
    splitOnNl (a ++ '\n' :: rest) = a :: splitOnNl rest := by
  induction a with
  | nil => simp [splitOnNl_cons_nl]
  | cons c t ih =>
    have hc : ¬ c = '\n' := fun h => ha (h ▸ List.mem_cons_self c t)
    have ht : '\n' ∉ t := fun h => ha (List.mem_cons_of_mem c h)
    rw [List.cons_append]
    exact splitOnNl_cons_ne c _ hc t (splitOnNl rest) (ih ht)

theorem splitOnNl_of_no_nl (a : List Char) (ha : '\n' ∉ a) : splitOnNl a = [a] := by
  induction a with
  | nil => rfl
  | cons c t ih =>
    have hc : ¬ c = '\n' := fun h => ha (h ▸ List.mem_cons_self c t)
    have ht : '\n' ∉ t := fun h => ha (List.mem_cons_of_mem c h)
    exact splitOnNl_cons_ne c t hc t [] (ih ht)

theorem splitOnNl_joinNl (ls : List (List Char)) (hne : ls ≠ [])
    (hnl : ∀ l ∈ ls, '\n' ∉ l) : splitOnNl (joinNl ls) = ls := by
  induction ls with
  | nil => exact absurd rfl hne
  | cons a r ih =>
    cases r with
    | nil => exact splitOnNl_of_no_nl a (hnl a (List.mem_cons_self a []))
    | cons b r2 =>
      have hj : joinNl (a :: b :: r2) = a ++ '\n' :: joinNl (b :: r2) := rfl
      rw [hj, splitOnNl_append_nl a _ (hnl a (List.mem_cons_self a _)),
        ih (by simp) (fun l hl => hnl l (List.mem_cons_of_mem a hl))]

theorem stripTrail_eq_nil_iff (l : List Char) :
    stripTrail l = [] ↔ l.all isSpc = true := by
  induction l with
  | nil => simp [stripTrail]
  | cons c r ih =>
    rw [stripTrail]
    constructor
    · intro h
      split at h
      · next hc =>
        rcases Bool.and_eq_true_iff.mp hc with ⟨h1, h2⟩
        rw [List.all_cons, h1, Bool.true_and]
        exact ih.mp (List.isEmpty_iff.mp h2)
      · simp at h
    · intro h
      rw [List.all_cons] at h
      rcases Bool.and_eq_true_iff.mp h with ⟨h1, h2⟩
      have h3 : stripTrail r = [] := ih.mpr h2
      simp [h1, h3]

theorem stripTrail_idem (l : List Char) : stripTrail (stripTrail l) = stripTrail l := by
  induction l with
  | nil => rfl
  | cons c r ih =>
    rw [stripTrail]
    split
    · rfl
    · next hc =>
      rw [stripTrail, ih]
      split
      · next hc2 =>
        exfalso
        rcases Bool.and_eq_true_iff.mp hc2 with ⟨h1, h2⟩
        exact hc (Bool.and_eq_true_iff.mpr ⟨h1, h2⟩)
      · rfl

theorem dropWhile_stripTrail_comm (l : List Char) :
    (stripTrail l).dropWhile isSpc = stripTrail (l.dropWhile isSpc) := by
  induction l with
  | nil => rfl
  | cons c r ih =>
    by_cases hc : isSpc c = true
    · have hrw : (c :: r).dropWhile isSpc = r.dropWhile isSpc := by
        rw [List.dropWhile_cons, if_pos hc]
      rw [hrw]
      rw [stripTrail]
      split
      · next hcond =>
        rcases Bool.and_eq_true_iff.mp hcond with ⟨_, h2⟩
        rw [List.isEmpty_iff] at h2
        have hall : r.all isSpc = true := (stripTrail_eq_nil_iff r).mp h2
        have hdr : r.dropWhile isSpc = [] :=
          List.dropWhile_eq_nil_iff.mpr (fun x hx => List.all_eq_true.mp hall x hx)
        rw [hdr]
        rfl
      · have h4 : (c :: stripTrail r).dropWhile isSpc = (stripTrail r).dropWhile isSpc := by
          rw [List.dropWhile_cons, if_pos hc]
        rw [h4]
        exact ih
    · have hcf : isSpc c = false := by simpa using hc
      have hrw : (c :: r).dropWhile isSpc = c :: r := by
        rw [List.dropWhile_cons, if_neg hc]
      rw [hrw]
      conv_lhs => rw [stripTrail]
      conv_rhs => rw [stripTrail]
      split
      · next hcond =>
        rcases Bool.and_eq_true_iff.mp hcond with ⟨h1, _⟩
        rw [h1] at hcf
        simp at hcf
      · rw [List.dropWhile_cons, if_neg hc]

theorem stripTrail_cons (c : Char) (x : List Char) :
    stripTrail (c :: x) =
      if isSpc c && (stripTrail x).isEmpty then [] else c :: stripTrail x := rfl

theorem pyStrip_stripTrail (l : List Char) : pyStrip (stripTrail l) = pyStrip l := by
  rw [pyStrip, pyStrip, dropWhile_stripTrail_comm, stripTrail_idem]

theorem pyStrip_cons_ws (c : Char) (x : List Char) (hc : isSpc c = true) :
    pyStrip (c :: x) = pyStrip x := by
  rw [pyStrip, pyStrip, List.dropWhile_cons, if_pos hc]

theorem pyStrip_cons_congr (c : Char) (x y : List Char)
    (h : stripTrail x = stripTrail y) : pyStrip (c :: x) = pyStrip (c :: y) := by
  rw [← pyStrip_stripTrail (c :: x), ← pyStrip_stripTrail (c :: y),
    stripTrail_cons, stripTrail_cons, h]

theorem noSubjLine_of_stripTrail_eq (x y : List Char)
    (h : stripTrail x = stripTrail y) : noSubjLine x = noSubjLine y := by
  rw [noSubjLine, noSubjLine, ← pyStrip_stripTrail x, ← pyStrip_stripTrail y, h]

theorem stripTrail_lines_spec (s : List Char) :
    stripTrail ((splitOnNl (stripTrail s)).headI) = stripTrail ((splitOnNl s).headI) ∧
    ((splitOnNl s).tail.all noSubjLine = true →
      (splitOnNl (stripTrail s)).tail.all noSubjLine = true) := by
  induction s with
  | nil => exact ⟨rfl, fun h => h⟩
  | cons c t ih =>
    obtain ⟨iha, ihb⟩ := ih
    rw [stripTrail_cons]
    by_cases hA : (isSpc c && (stripTrail t).isEmpty) = true
    · rw [if_pos hA]
      rcases Bool.and_eq_true_iff.mp hA with ⟨hcw, hte⟩
      have htall : t.all isSpc = true :=
        (stripTrail_eq_nil_iff t).mp (List.isEmpty_iff.mp hte)
      have hall : (c :: t).all isSpc = true := by simp [List.all_cons, hcw, htall]
      constructor
      · have hhd : ((splitOnNl (c :: t)).headI).all isSpc = true := by
          rcases hsp : splitOnNl (c :: t) with _ | ⟨h0, hs0⟩
          · exact absurd hsp (splitOnNl_ne_nil _)
          · rw [List.headI_cons]
            apply List.all_eq_true.mpr
            intro x hx
            exact List.all_eq_true.mp hall x
              (splitOnNl_mem_chars _ h0 x (hsp ▸ List.mem_cons_self h0 hs0) hx)
        rw [(stripTrail_eq_nil_iff _).mpr hhd]
        rfl
      · intro _
        rfl
    · rw [if_neg hA]
      by_cases hcnl : c = '\n'
      · subst hcnl
        rw [splitOnNl_cons_nl, splitOnNl_cons_nl]
        constructor
        · rfl
        · intro h
          simp only [List.tail_cons] at h ⊢
          rcases hspt : splitOnNl t with _ | ⟨h0, hs0⟩
          · exact absurd hspt (splitOnNl_ne_nil t)
          rcases hspu : splitOnNl (stripTrail t) with _ | ⟨h1, hs1⟩
          · exact absurd hspu (splitOnNl_ne_nil _)
          rw [hspt, List.all_cons] at h
          rcases Bool.and_eq_true_iff.mp h with ⟨hh0, hhs0⟩
          have hb := ihb (by rw [hspt]; simpa using hhs0)
          rw [hspu] at hb
          simp only [List.tail_cons] at hb
          have ha' : stripTrail h1 = stripTrail h0 := by
            rw [hspt, hspu] at iha
            simpa using iha
          rw [List.all_cons, noSubjLine_of_stripTrail_eq _ _ ha', hh0]
          simpa using hb
      · rcases hspt : splitOnNl t with _ | ⟨h0, hs0⟩
        · exact absurd hspt (splitOnNl_ne_nil t)
        rcases hspu : splitOnNl (stripTrail t) with _ | ⟨h1, hs1⟩
        · exact absurd hspu (splitOnNl_ne_nil _)
        rw [splitOnNl_cons_ne c t hcnl h0 hs0 hspt,
          splitOnNl_cons_ne c (stripTrail t) hcnl h1 hs1 hspu]
        have ha' : stripTrail h1 = stripTrail h0 := by
          rw [hspt, hspu] at iha
          simpa using iha
        constructor
        · show stripTrail (c :: h1) = stripTrail (c :: h0)
          rw [stripTrail_cons, stripTrail_cons, ha']
        · intro h
          simp only [List.tail_cons] at h ⊢
          have hb := ihb (by rw [hspt]; simpa using h)
          rw [hspu] at hb
          simpa using hb

theorem stripTrail_linesOk (s : List Char) (h : linesOk s = true) :
    linesOk (stripTrail s) = true := by
  obtain ⟨iha, ihb⟩ := stripTrail_lines_spec s
  rw [linesOk] at h ⊢
  rcases hspt : splitOnNl s with _ | ⟨h0, hs0⟩
  · exact absurd hspt (splitOnNl_ne_nil s)
  rcases hspu : splitOnNl (stripTrail s) with _ | ⟨h1, hs1⟩
  · exact absurd hspu (splitOnNl_ne_nil _)
  rw [hspt, List.all_cons] at h
  rcases Bool.and_eq_true_iff.mp h with ⟨hh0, hhs0⟩
  have hb := ihb (by rw [hspt]; simpa using hhs0)
  rw [hspu] at hb
  simp only [List.tail_cons] at hb
  have ha' : stripTrail h1 = stripTrail h0 := by
    rw [hspt, hspu] at iha
    simpa using iha
  rw [List.all_cons, noSubjLine_of_stripTrail_eq _ _ ha', hh0]
  simpa using hb

theorem dropWhile_linesOk (s : List Char) (h : linesOk s = true) :
    linesOk (s.dropWhile isSpc) = true := by
  induction s with
  | nil => exact h
  | cons c t ih =>
    by_cases hc : isSpc c = true
    · rw [List.dropWhile_cons, if_pos hc]
      apply ih
      by_cases hnl : c = '\n'
      · subst hnl
        rw [linesOk, splitOnNl_cons_nl, List.all_cons] at h
        exact (Bool.and_eq_true_iff.mp h).2
      · rcases hspt : splitOnNl t with _ | ⟨h0, hs0⟩
        · exact absurd hspt (splitOnNl_ne_nil t)
        rw [linesOk, splitOnNl_cons_ne c t hnl h0 hs0 hspt, List.all_cons] at h
        rcases Bool.and_eq_true_iff.mp h with ⟨hh, hhs⟩
        rw [linesOk, hspt, List.all_cons]
        have he : noSubjLine h0 = noSubjLine (c :: h0) := by
          rw [noSubjLine, noSubjLine, pyStrip_cons_ws c h0 hc]
        rw [he, hh]
        simpa using hhs
    · rw [List.dropWhile_cons, if_neg hc]
      exact h

theorem pyStrip_linesOk (s : List Char) (h : linesOk s = true) :
    linesOk (pyStrip s) = true :=
  stripTrail_linesOk _ (dropWhile_linesOk s h)

theorem keepLines_mem (ls : List (List Char)) (acc : List (List Char)) (l : List Char)
    (h : l ∈ keepLines acc ls) :
    l ∈ acc ∨ (l ∈ ls ∧ isSubjectLine (pyStrip l) = false) := by
  induction ls generalizing acc with
  | nil =>
    rw [keepLines] at h
    exact Or.inl (List.mem_reverse.mp h)
  | cons a r ih =>
    rw [keepLines] at h
    split at h
    · rcases ih acc h with h1 | ⟨h1, h2⟩
      · exact Or.inl h1
      · exact Or.inr ⟨List.mem_cons_of_mem a h1, h2⟩
    · next hna =>
      split at h
      · rcases ih acc h with h1 | ⟨h1, h2⟩
        · exact Or.inl h1
        · exact Or.inr ⟨List.mem_cons_of_mem a h1, h2⟩
      · rcases ih (a :: acc) h with h1 | ⟨h1, h2⟩
        · rcases List.mem_cons.mp h1 with h2 | h2
          · subst h2
            exact Or.inr ⟨List.mem_cons_self _ _, by simpa using hna⟩
          · exact Or.inl h2
        · exact Or.inr ⟨List.mem_cons_of_mem a h1, h2⟩

theorem takeWhile_pyStrip_nil (s : List Char) : (pyStrip s).takeWhile isSpc = [] := by
  rcases hp : pyStrip s with _ | ⟨c, t⟩
  · rfl
  · have hc : isSpc c = false := pyStrip_head?_not_ws s c (by rw [hp]; rfl)
    rw [List.takeWhile_cons, hc]
    rfl

theorem rev_takeWhile_pyStrip_nil (s : List Char) :
    (pyStrip s).reverse.takeWhile isSpc = [] := by
  rcases hp : (pyStrip s).reverse with _ | ⟨c, t⟩
  · rfl
  · have hc' : (pyStrip s).getLast? = some c := by
      rw [← List.head?_reverse, hp]
      rfl
    have hc : isSpc c = false := pyStrip_getLast?_not_ws s c hc'
    rw [List.takeWhile_cons, hc]
    rfl

theorem subLeadingBlank_pyStrip (s : List Char) :
    subLeadingBlank (pyStrip s) = pyStrip s := by
  simp [subLeadingBlank, takeWhile_pyStrip_nil s]

theorem subTrailingBlank_pyStrip (s : List Char) :
    subTrailingBlank (pyStrip s) = pyStrip s := by
  simp [subTrailingBlank, rev_takeWhile_pyStrip_nil s]

theorem keepLines_joinNl_linesOk (ls : List (List Char))
    (hnl : ∀ l ∈ ls, '\n' ∉ l) : linesOk (joinNl (keepLines [] ls)) = true := by
  have hkl : ∀ l ∈ keepLines [] ls, '\n' ∉ l := by
    intro l hl
    rcases keepLines_mem ls [] l hl with h | ⟨h1, _⟩
    · simp at h
    · exact hnl l h1
  rcases hc : keepLines [] ls with _ | ⟨a, r⟩
  · decide
  · rw [linesOk, ← hc, splitOnNl_joinNl (keepLines [] ls) (by rw [hc]; simp) hkl]
    apply List.all_eq_true.mpr
    intro l hl
    rcases keepLines_mem ls [] l hl with h | ⟨_, h2⟩
    · simp at h
    · rw [noSubjLine, h2]
      rfl

/-- C7 (amended): every line of `clean_cover_letter_content`'s output
fails the three label patterns the code actually checks —
`[Ss]ubject\s*:` with only the first letter case-insensitive, `主题\s*:`
and `邮件主题\s*:` — after stripping. -/
theorem clean_letter_lines_ok (content : String) :
    linesOk (clean_cover_letter_content content).data = true := by
  rw [clean_cover_letter_content]
  split
  · next hemp =>
    rw [hemp]
    decide
  · show linesOk (cleanLetterCore content.data) = true
    simp only [cleanLetterCore]
    rw [subLeadingBlank_pyStrip, subTrailingBlank_pyStrip]
    apply pyStrip_linesOk
    exact keepLines_joinNl_linesOk _ (fun l hl => splitOnNl_no_nl content.data l hl)

/-- C7 (counterexample): the claim's case-insensitive removal fails:
`"SUBJECT: x"` is kept verbatim, so the output has a line that starts
with a "Subject:"-like prefix case-insensitively. -/
theorem clean_letter_ci_cex :
    (splitOnNl (clean_cover_letter_content "SUBJECT: x").data).any
      (fun l => ciSubjectLine (pyStrip l)) = true := by
  decide

/-! ## Cache and generator theorems -/

theorem cacheLookup_insert (cache : Cache) (company : String) (r : CacheRecord) :
    cacheLookup (cacheInsert cache company r) company = some r := by
  induction cache with
  | nil => simp [cacheInsert, cacheLookup]
  | cons p t ih =>
    rw [cacheInsert]
    split
    · rw [cacheLookup]
      simp
    · next hne =>
      rw [cacheLookup, if_neg hne]
      exact ih

/-- C1 (amended): with `force=false`, a cached record whose letter is
non-empty and whose stored `cv_filename` equals the request's document
reference is returned verbatim — no model invocation, no model load,
no re-sanitization, cache unchanged; while a record whose stored
`cv_filename` differs is ignored: the call behaves exactly like a
forced regeneration.  (The code additionally requires the stored
letter to be truthy, which the original claim omitted.) -/
theorem cache_fresh_hit_and_cv_mismatch (env : GenEnv) (cache : Cache)
    (applicant cv company desc reqs mode : String) (r : CacheRecord)
    (hr : cacheLookup cache company = some r) :
    (r.cover_letter ≠ "" → r.cv_filename = cv →
      generate_cover_letter_and_subject env cache applicant cv company desc reqs mode false =
        ⟨some r.cover_letter, r.subject, cache, 0, 0⟩) ∧
    (r.cv_filename ≠ cv →
      generate_cover_letter_and_subject env cache applicant cv company desc reqs mode false =
        generate_cover_letter_and_subject env cache applicant cv company desc reqs mode true) := by
  constructor
  · intro h1 h2
    have hh : cacheHitRecord cache company cv false = some r := by
      simp [cacheHitRecord, hr, h1, h2]
    simp [generate_cover_letter_and_subject, hh]
  · intro h2
    have hh : cacheHitRecord cache company cv false = none := by
      simp [cacheHitRecord, hr, h2]
    have hh2 : cacheHitRecord cache company cv true = none := by
      simp [cacheHitRecord]
    simp [generate_cover_letter_and_subject, hh, hh2]

/-- C1 (witness): the fresh-hit branch at a concrete cache and
environment. -/
theorem cache_fresh_hit_witness :
    generate_cover_letter_and_subject happyEnv cacheWithFresh "A" "cv.pdf" "Acme"
        "d" "q" "professional" false =
      ⟨some freshRecord.cover_letter, freshRecord.subject, cacheWithFresh, 0, 0⟩ :=
  (cache_fresh_hit_and_cv_mismatch happyEnv cacheWithFresh "A" "cv.pdf" "Acme"
      "d" "q" "professional" freshRecord rfl).1 (by decide) rfl

/-- C1 (counterexample): a cached record for the company whose
`cv_filename` matches but whose stored letter is empty (as a JSON
`null`/`""` letter deserialises) is **not** served: the call
regenerates — two chat invocations — and returns the model's text
rather than the record's letter, although `force=false` and the
document reference matches. -/
theorem cache_empty_letter_cex :
    (generate_cover_letter_and_subject happyEnv cacheWithEmptyLetter "A" "cv.pdf" "Acme"
        "d" "q" "professional" false).chatCalls = 2 ∧
    (generate_cover_letter_and_subject happyEnv cacheWithEmptyLetter "A" "cv.pdf" "Acme"
        "d" "q" "professional" false).letter ≠ some emptyLetterRecord.cover_letter := by
  constructor
  · rfl
  · decide

/-- C2: the cache key excludes the generation mode.  If a first call
with mode `"professional"` and `force=false` ends with a non-empty
letter, then a second call with the same document reference, any other
mode, and `force=false` returns exactly that letter and subject from
the cache, with no chat invocation and no model load. -/
theorem cache_ignores_mode (env : GenEnv) (cache : Cache)
    (applicant cv company desc reqs : String) (l : String) (mode2 : String)
    (h1 : (generate_cover_letter_and_subject env cache applicant cv company desc reqs
      "professional" false).letter = some l)
    (h2 : l ≠ "") :
    generate_cover_letter_and_subject env
        (generate_cover_letter_and_subject env cache applicant cv company desc reqs
          "professional" false).cache
        applicant cv company desc reqs mode2 false =
      ⟨some l,
        (generate_cover_letter_and_subject env cache applicant cv company desc reqs
          "professional" false).subject,
        (generate_cover_letter_and_subject env cache applicant cv company desc reqs
          "professional" false).cache, 0, 0⟩ := by
  rcases hh : cacheHitRecord cache company cv false with _ | r
  · have hfirst : generate_cover_letter_and_subject env cache applicant cv company desc
        reqs "professional" false = regeneratePath env cache applicant cv company desc
        reqs "professional" := by
      simp [generate_cover_letter_and_subject, hh]
    rw [hfirst] at h1 ⊢
    simp only [regeneratePath] at h1 ⊢
    split at h1
    · simp at h1
    · split at h1
      · simp at h1
      · split at h1
        · simp at h1
        · next hc1 hc2 hc3 =>
          rw [if_neg hc1, if_neg hc2, if_neg hc3]
          rcases hchat : env.chat
              (get_language_specific_prompt company "professional").system_prompt
              (renderTemplate
                (get_language_specific_prompt company "professional").user_prompt_template
                (env.extractText (cvPath cv)) company desc reqs applicant) with _ | raw
          · rw [hchat] at h1
            simp at h1
          · rw [hchat] at h1
            simp at h1
            have hins := cacheLookup_insert cache company
              ⟨company, l,
                (generate_email_subject env applicant cv company desc reqs
                  "professional" true).subject, "professional", cv, env.now,
                detect_company_language company⟩
            have hhit : cacheHitRecord
                (cacheInsert cache company
                  ⟨company, l,
                    (generate_email_subject env applicant cv company desc reqs
                      "professional" true).subject, "professional", cv, env.now,
                    detect_company_language company⟩) company cv false =
                some ⟨company, l,
                  (generate_email_subject env applicant cv company desc reqs
                    "professional" true).subject, "professional", cv, env.now,
                  detect_company_language company⟩ := by
              simp [cacheHitRecord, hins, h2]
            simp [generate_cover_letter_and_subject, h1, h2, hhit]
  · have hfirst : generate_cover_letter_and_subject env cache applicant cv company desc
        reqs "professional" false = ⟨some r.cover_letter, r.subject, cache, 0, 0⟩ := by
      simp [generate_cover_letter_and_subject, hh]
    rw [hfirst] at h1 ⊢
    simp at h1
    simp [generate_cover_letter_and_subject, hh, h1]

/-- C2 (witness): a successful professional generation into an empty
cache followed by an `"enthusiastic"` request returns the cached
professional result. -/
theorem cache_ignores_mode_witness :
    generate_cover_letter_and_subject happyEnv
        (generate_cover_letter_and_subject happyEnv [] "A" "cv.pdf" "Acme" "d" "q"
          "professional" false).cache "A" "cv.pdf" "Acme" "d" "q" "enthusiastic" false =
      ⟨some "Hello committee",
        (generate_cover_letter_and_subject happyEnv [] "A" "cv.pdf" "Acme" "d" "q"
          "professional" false).subject,
        (generate_cover_letter_and_subject happyEnv [] "A" "cv.pdf" "Acme" "d" "q"
          "professional" false).cache, 0, 0⟩ :=
  cache_ignores_mode happyEnv [] "A" "cv.pdf" "Acme" "d" "q" "Hello committee"
    "enthusiastic" (by decide) (by decide)

/-- C8: when the request is not served from the cache and the CV file
is missing or extracts to the empty string, the generator returns a
null letter and the organization-specific default subject — which is
non-empty and contains the organization name — without a single chat
invocation or model load, and without touching the cache. -/
theorem empty_extraction_default (env : GenEnv) (cache : Cache)
    (applicant cv company desc reqs mode : String) (force : Bool)
    (hnc : cacheHitRecord cache company cv force = none)
    (hempty : env.fileExists (cvPath cv) = false ∨ env.extractText (cvPath cv) = "") :
    (generate_cover_letter_and_subject env cache applicant cv company desc reqs mode
        force).letter = none ∧
    (generate_cover_letter_and_subject env cache applicant cv company desc reqs mode
        force).subject = defaultSubject company ∧
    defaultSubject company ≠ "" ∧
    (∃ pre post, defaultSubject company = pre ++ company ++ post) ∧
    (generate_cover_letter_and_subject env cache applicant cv company desc reqs mode
        force).chatCalls = 0 ∧
    (generate_cover_letter_and_subject env cache applicant cv company desc reqs mode
        force).modelLoads = 0 ∧
    (generate_cover_letter_and_subject env cache applicant cv company desc reqs mode
        force).cache = cache := by
  have hne : defaultSubject company ≠ "" := by
    rw [defaultSubject]
    intro h
    have := congrArg String.data h
    rw [String.data_append] at this
    simp at this
  have hctn : ∃ pre post, defaultSubject company = pre ++ company ++ post :=
    ⟨"Internship Application – ", "", by rw [defaultSubject]; simp⟩
  have hout : generate_cover_letter_and_subject env cache applicant cv company desc reqs
      mode force = ⟨none, defaultSubject company, cache, 0, 0⟩ := by
    rcases hempty with he | he
    · simp [generate_cover_letter_and_subject, hnc, regeneratePath, he]
    · simp [generate_cover_letter_and_subject, hnc, regeneratePath, he]
  rw [hout]
  exact ⟨rfl, rfl, hne, hctn, rfl, rfl, rfl⟩

/-- C8 (witness): the empty-extraction case at a concrete environment
whose CV file is missing. -/
theorem empty_extraction_default_witness :
    (generate_cover_letter_and_subject noFileEnv [] "A" "cv.pdf" "Acme" "d" "q"
        "professional" false).letter = none ∧
    (generate_cover_letter_and_subject noFileEnv [] "A" "cv.pdf" "Acme" "d" "q"
        "professional" false).subject = defaultSubject "Acme" ∧
    defaultSubject "Acme" ≠ "" ∧
    (∃ pre post, defaultSubject "Acme" = pre ++ "Acme" ++ post) ∧
    (generate_cover_letter_and_subject noFileEnv [] "A" "cv.pdf" "Acme" "d" "q"
        "professional" false).chatCalls = 0 ∧
    (generate_cover_letter_and_subject noFileEnv [] "A" "cv.pdf" "Acme" "d" "q"
        "professional" false).modelLoads = 0 ∧
    (generate_cover_letter_and_subject noFileEnv [] "A" "cv.pdf" "Acme" "d" "q"
        "professional" false).cache = [] :=
  empty_extraction_default noFileEnv [] "A" "cv.pdf" "Acme" "d" "q" "professional" false
    rfl (Or.inl rfl)

/-- C10: the custom-template generator uses the same template-blind
cache check — any record with a non-empty letter and matching
`cv_filename` is returned as-is (whatever mode produced it, no chat
call, cache untouched); and whenever it regenerates and ends with a
non-empty letter, the record it writes for the company stores the
literal mode string `"custom"` together with the produced letter,
subject, current document reference and timestamp. -/
theorem custom_template_cache_and_mode (env : GenEnv) (cache : Cache)
    (applicant cv company desc reqs tmpl : String) :
    (∀ r, cacheLookup cache company = some r → r.cover_letter ≠ "" →
      r.cv_filename = cv →
      generate_cover_letter_with_custom_template env cache applicant cv company desc reqs
          tmpl false = ⟨some r.cover_letter, r.subject, cache, 0, 0⟩) ∧
    (∀ force l, cacheHitRecord cache company cv force = none →
      (generate_cover_letter_with_custom_template env cache applicant cv company desc
          reqs tmpl force).letter = some l → l ≠ "" →
      cacheLookup (generate_cover_letter_with_custom_template env cache applicant cv
          company desc reqs tmpl force).cache company =
        some ⟨company, l,
          (generate_cover_letter_with_custom_template env cache applicant cv company desc
            reqs tmpl force).subject, "custom", cv, env.now,
          detect_company_language company⟩) := by
  constructor
  · intro r hr h1 h2
    have hh : cacheHitRecord cache company cv false = some r := by
      simp [cacheHitRecord, hr, h1, h2]
    simp [generate_cover_letter_with_custom_template, hh]
  · intro force l hnc h hl
    simp only [generate_cover_letter_with_custom_template, hnc] at h ⊢
    split at h
    · simp at h
    · split at h
      · simp at h
      · split at h
        · simp at h
        · next hc1 hc2 hc3 =>
          rw [if_neg hc1, if_neg hc2, if_neg hc3]
          split at h
          · next raw heq =>
            simp at h
            simp [h, hl, cacheLookup_insert]
          · next heq =>
            simp at h

/-- C10 (witness): both custom-template properties at concrete inputs:
a professional-mode record is served from the cache, and a forced
regeneration writes a `"custom"`-mode record. -/
theorem custom_template_witness :
    generate_cover_letter_with_custom_template happyEnv cacheWithFresh "A" "cv.pdf" "Acme"
        "d" "q" "T" false =
      ⟨some freshRecord.cover_letter, freshRecord.subject, cacheWithFresh, 0, 0⟩ ∧
    cacheLookup (generate_cover_letter_with_custom_template happyEnv [] "A" "cv.pdf"
        "Acme" "d" "q" "T" true).cache "Acme" =
      some ⟨"Acme", "Hello committee",
        (generate_cover_letter_with_custom_template happyEnv [] "A" "cv.pdf" "Acme" "d"
          "q" "T" true).subject, "custom", "cv.pdf", happyEnv.now,
        detect_company_language "Acme"⟩ :=
  ⟨(custom_template_cache_and_mode happyEnv cacheWithFresh "A" "cv.pdf" "Acme" "d" "q"
      "T").1 freshRecord rfl (by decide) rfl,
    (custom_template_cache_and_mode happyEnv [] "A" "cv.pdf" "Acme" "d" "q" "T").2
      true "Hello committee" rfl (by decide) (by decide)⟩

/-! ## Router theorems -/

/-- C3 (amended): a failed key validation is reported, not thrown —
the processor constructs with `api_key_valid = false` — and the router
then selects the local backend when the local model loads; but when
the local load *also* fails, `ModelRouter.__init__` itself propagates
the load failure: construction returns an error and no router value
(no "Failed"-state object whose later chat calls could raise) exists. -/
theorem router_fallback_behavior (env : RouterEnv) (k : String) (hk : k ≠ "")
    (hav : env.deepseekAvailable = true) (hinvalid : env.testApiKey k = false) :
    mkDeepSeekProcessor env k = .ok ⟨k, false⟩ ∧
    (env.localLoadOk = true →
      mkModelRouter env "deepseek-chat" (some k) = .ok .localModel) ∧
    (env.localLoadOk = false →
      mkModelRouter env "deepseek-chat" (some k) = .error .localLoadFailed) := by
  have hp : mkDeepSeekProcessor env k = .ok ⟨k, false⟩ := by
    simp [mkDeepSeekProcessor, hav, hinvalid]
  refine ⟨hp, ?_, ?_⟩
  · intro hl
    simp [mkModelRouter, truthyKey, hk, hp, loadLocalModel, hl]
  · intro hl
    simp [mkModelRouter, truthyKey, hk, hp, loadLocalModel, hl]

/-- C3 (witness): the amended router behavior at concrete
environments. -/
theorem router_fallback_witness :
    mkDeepSeekProcessor routerEnvInvalidKey "sk-test" = .ok ⟨"sk-test", false⟩ ∧
    mkModelRouter routerEnvInvalidKey "deepseek-chat" (some "sk-test") = .ok .localModel ∧
    mkModelRouter routerEnvBothFail "deepseek-chat" (some "sk-test") =
      .error .localLoadFailed :=
  ⟨(router_fallback_behavior routerEnvInvalidKey "sk-test" (by decide) rfl rfl).1,
    (router_fallback_behavior routerEnvInvalidKey "sk-test" (by decide) rfl rfl).2.1 rfl,
    (router_fallback_behavior routerEnvBothFail "sk-test" (by decide) rfl rfl).2.2 rfl⟩

/-- C3 (counterexample): with an invalid key and a failing local model
load, router construction yields no router at all — `__init__` raises
the load error — contradicting the claimed terminal Failed state whose
subsequent chat calls raise `BackendUnavailable`. -/
theorem router_both_fail_cex :
    (mkModelRouter routerEnvBothFail "deepseek-chat" (some "sk-test")).isOk = false := rfl

/-! ## Mode-configuration theorems -/

theorem defaultModeBranch_ok_iff (c : ClConfig) :
    (defaultModeBranch c).isOk = true ↔
      ∃ modes, c.cover_letter_modes = some modes ∧
        (jsonLookup modes (c.default_mode.getD "professional")).isSome = true := by
  simp only [defaultModeBranch]
  rcases hm : c.cover_letter_modes with _ | modes
  · simp [Except.isOk, Except.toBool]
  · rcases hl : jsonLookup modes (c.default_mode.getD "professional") with _ | v <;>
      simp [hl, Except.isOk, Except.toBool]

/-- C9 (amended): `get_cover_letter_mode` returns a prompt set (raises
nothing) exactly when the configuration is absent or falsy, or when
its `cover_letter_modes` table exists and contains the truthy
requested mode or the default mode.  In particular a truthy, well-formed
configuration whose table lacks both the requested and the default
mode — or lacks the `cover_letter_modes` key — raises `KeyError`
instead of degrading to the built-in default prompt set. -/
theorem mode_resolution_ok_iff (config : Option ClConfig) (mode_name : Option String) :
    (get_cover_letter_mode config mode_name).isOk = true ↔
      ∀ c, config = some c → (c.truthy = false ∨
        ∃ modes, c.cover_letter_modes = some modes ∧
          ((∃ m, mode_name = some m ∧ m ≠ "" ∧ (jsonLookup modes m).isSome = true) ∨
            (jsonLookup modes (c.default_mode.getD "professional")).isSome = true)) := by
  rcases config with _ | c
  · simp [get_cover_letter_mode, Except.isOk, Except.toBool]
  · simp only [get_cover_letter_mode, Option.some.injEq, forall_eq']
    by_cases ht : c.truthy = true
    · rw [if_neg (by simp [ht])]
      rcases mode_name with _ | m
      · rw [defaultModeBranch_ok_iff]
        simp [ht]
      · simp only []
        by_cases hm : m = ""
        · subst hm
          simp [defaultModeBranch_ok_iff, ht]
        · rw [if_neg hm]
          rcases hcm : c.cover_letter_modes with _ | modes
          · simp [hcm, ht, hm, Except.isOk, Except.toBool]
          · rcases hjl : jsonLookup modes m with _ | v
            · simp only []
              rw [hjl]
              simp only []
              rw [defaultModeBranch_ok_iff]
              simp [hcm, hjl, hm, ht]
            · simp [hcm, hjl, ht, hm, Except.isOk, Except.toBool]
    · have ht' : c.truthy = false := by simpa using ht
      simp [ht', Except.isOk, Except.toBool]

/-- C9 (witness): the amended characterization applied at an absent
configuration. -/
theorem mode_resolution_ok_iff_witness :
    (get_cover_letter_mode none (some "professional")).isOk = true :=
  (mode_resolution_ok_iff none (some "professional")).mpr (by simp)

/-- C9 (counterexample): a truthy configuration whose
`cover_letter_modes` table contains neither the requested mode nor the
default mode makes resolution raise `KeyError` — it does not degrade
to the built-in default prompt set. -/
theorem mode_resolution_keyerror_cex :
    get_cover_letter_mode (some cfgMissingModes) (some "enthusiastic") =
      .error .keyError := rfl
